import Mathlib

/-!
# routes/index.js of the NGSI-LD tutorial application

A shallow embedding of the decision logic of `src/app/routes/index.js`:

* the subscription webhook `POST /subscription/:type` together with
  `broadcastEvents`,
* the guards of `/app/price-change` and `/app/order-stock`,
* the device list built by `GET /device/history`.

JavaScript values are the values a parsed JSON request body can hold, plus
`undefined` for a missing property.  External collaborators (`monitor`,
`Security.*`, `Farm.*`) are parameters of the model.
-/

namespace Routes

/-! ## JavaScript values -/

/-- A JavaScript value as it occurs in a parsed JSON body.  Numbers are the
finite numbers a JSON text denotes (`NaN` cannot occur in parsed JSON, and `-0`
is identified with `0`); an object is the list of its own properties in
enumeration order, with pairwise distinct keys. -/
inductive JsVal where
  | undefined : JsVal
  | null : JsVal
  | bool (b : Bool) : JsVal
  | num (q : ℚ) : JsVal
  | str (s : String) : JsVal
  | arr (xs : List JsVal) : JsVal
  | obj (kvs : List (String × JsVal)) : JsVal

/-- Errors a JavaScript evaluation can raise in this file. -/
inductive JsError where
  /-- Reading a property of `undefined` or `null`. -/
  | typeError : JsError
  /-- An exception raised inside `monitor`. -/
  | monitorFailure : JsError
  /-- Growing an array past the largest array length, 2^32 - 1. -/
  | rangeError : JsError
  deriving DecidableEq, Repr

/-- ECMAScript `ToBoolean`: `undefined`, `null`, `false`, `0` and `''` are falsy,
every other value (objects and arrays included) is truthy. -/
def truthy : JsVal → Bool
  | .undefined => false
  | .null => false
  | .bool b => b
  | .num q => decide (q ≠ 0)
  | .str s => decide (s ≠ "")
  | .arr _ => true
  | .obj _ => true

/-- The JavaScript expression `a || b`. -/
def jsOr (a b : JsVal) : JsVal :=
  if truthy a then a else b

/-- Own property of an object given as its property list. -/
def ownProp (kvs : List (String × JsVal)) (key : String) : JsVal :=
  match kvs.lookup key with
  | some v => v
  | none => .undefined

/-- Property read `v[key]` for the names this file reads (`data` and the names
in `NOTIFY_ATTRIBUTES`).  Reading a property of `undefined` or `null` raises a
`TypeError`.  None of these names is an index, `length` or a member of a
built-in prototype, so on arrays, strings, numbers and booleans the read gives
`undefined`, and on an object it gives the own property. -/
def getProp (v : JsVal) (key : String) : Except JsError JsVal :=
  match v with
  | .undefined => .error .typeError
  | .null => .error .typeError
  | .obj kvs => .ok (ownProp kvs key)
  | _ => .ok .undefined

/-! ## Effects: calls of `monitor` -/

/-- One call of `monitor(name, payload, object)` from `lib/monitoring`; the
third argument is absent in the two-argument calls. -/
structure MonitorCall where
  name : JsVal
  payload : String
  object : Option JsVal

/-- Behaviour of the external `monitor`: given the calls attempted before and
the current call, whether the current call throws. -/
abbrev MonitorBehaviour := List MonitorCall → MonitorCall → Bool

/-- A monitor that always returns normally. -/
def reliable : MonitorBehaviour := fun _ _ => false

/-- An effectful computation: from the monitor calls attempted so far to a
result (or a thrown error) and the monitor calls attempted afterwards. -/
def Eff (α : Type) : Type := List MonitorCall → Except JsError α × List MonitorCall

/-- Returning a value without any effect. -/
def Eff.pure {α : Type} (a : α) : Eff α := fun tr => (.ok a, tr)

/-- Sequencing: a thrown error skips the rest. -/
def Eff.bind {α β : Type} (x : Eff α) (f : α → Eff β) : Eff β := fun tr =>
  match x tr with
  | (.error e, tr1) => (.error e, tr1)
  | (.ok a, tr1) => f a tr1

/-- An evaluation that may throw, without monitor calls. -/
def Eff.ofExcept {α : Type} (r : Except JsError α) : Eff α := fun tr => (r, tr)

instance : Monad Eff where
  pure := Eff.pure
  bind := Eff.bind

/-- Calling `monitor`: the attempt is recorded, then the call returns
`undefined` or throws, as the behaviour says. -/
def monitor (m : MonitorBehaviour) (c : MonitorCall) : Eff JsVal := fun tr =>
  if m tr c then (.error .monitorFailure, tr ++ [c]) else (.ok .undefined, tr ++ [c])

/-! ## lodash `_.forEach` -/

/-- Lodash `arrayEach`: calls the iteratee on each element in order; stops
early when the iteratee returns exactly `false`; an exception propagates. -/
def arrayEach {α : Type} (iteratee : α → Eff JsVal) : List α → Eff Unit
  | [] => pure ()
  | x :: xs => do
    let r ← iteratee x
    match r with
    | .bool false => pure ()
    | _ => arrayEach iteratee xs

/-- Lodash `isLength`: a number that is an integer between 0 and
`Number.MAX_SAFE_INTEGER`. -/
def isLength : JsVal → Option Nat
  | .num q => if q.den = 1 ∧ 0 ≤ q.num ∧ q.num ≤ 9007199254740991 then some q.num.toNat else none
  | _ => none

/-- Lodash `_.forEach(collection, iteratee)`.  `null` and `undefined` are
skipped; an array is walked by `arrayEach`; an array-like value (a string, or
an object whose `length` passes `isLength`) is walked by index; any other
object is walked over its own property values; numbers and booleans have no
own enumerable keys.  A string's elements are taken per character. -/
def forEach (collection : JsVal) (iteratee : JsVal → Eff JsVal) : Eff Unit :=
  match collection with
  | .undefined => pure ()
  | .null => pure ()
  | .arr xs => arrayEach iteratee xs
  | .str s => arrayEach iteratee (s.toList.map fun c => JsVal.str (String.singleton c))
  | .num _ => pure ()
  | .bool _ => pure ()
  | .obj kvs =>
    match isLength (ownProp kvs "length") with
    | some n => arrayEach iteratee ((List.range n).map fun i => ownProp kvs (toString i))
    | none => arrayEach iteratee (kvs.map Prod.snd)

/-! ## The subscription webhook -/

/-- The constant `NOTIFY_ATTRIBUTES`. -/
def NOTIFY_ATTRIBUTES : List String :=
  ["controlledAsset", "type", "filling", "humidity", "temperature"]

/-- The iteratee of `broadcastEvents`:
`(type) => { if (item[type]) { monitor(item[type], message); } }`. -/
def broadcastOne (m : MonitorBehaviour) (message : String) (item : JsVal) (type : String) :
    Eff JsVal := do
  let v ← Eff.ofExcept (getProp item type)
  if truthy v then
    let _ ← monitor m ⟨v, message, none⟩
    pure .undefined
  else
    pure .undefined

/-- The function `broadcastEvents(req, item, types)`; `reqType` is
`req.params.type`. -/
def broadcastEvents (m : MonitorBehaviour) (reqType : String) (item : JsVal)
    (types : List String) : Eff Unit :=
  let message := reqType ++ " received"
  arrayEach (broadcastOne m message item) types

/-- An HTTP response sent by `res.status(s).send(b)`. -/
structure Response where
  status : Nat
  body : Option String
  deriving DecidableEq, Repr

/-- The handler of `POST /subscription/:type`; `reqType` is `req.params.type`
and `body` is `req.body`.  The result is the response sent, or the exception
that leaves the handler. -/
def subscriptionHandler (m : MonitorBehaviour) (reqType : String) (body : JsVal) :
    Eff Response := do
  let _ ← monitor m ⟨.str "notify", reqType ++ " received", some body⟩
  let data ← Eff.ofExcept (getProp body "data")
  forEach data fun item => do
    broadcastEvents m reqType item NOTIFY_ATTRIBUTES
    pure .undefined
  pure ⟨204, none⟩

/-! ## Reference descriptions used in the statements -/

/-- The broadcasts of one item as the specification words them: for each name
of the allow-list, in its fixed order, one call `(item[name], t + ' received')`
exactly when the item has that attribute with a truthy value. -/
def expectedBroadcasts (t : String) (item : List (String × JsVal)) : List MonitorCall :=
  ["controlledAsset", "type", "filling", "humidity", "temperature"].filterMap fun name =>
    match item.lookup name with
    | some v => if truthy v then some ⟨v, t ++ " received", none⟩ else none
    | none => none

/-- The calls one attribute name contributes for an object item. -/
def emitted (message : String) (kvs : List (String × JsVal)) (name : String) : List MonitorCall :=
  if truthy (ownProp kvs name) then [⟨ownProp kvs name, message, none⟩] else []

/-- Attempting a fixed list of monitor calls in order and finishing with a
fixed result, unless one of the calls throws: then the exception is the result
and no later call is attempted. -/
def replay {α : Type} (m : MonitorBehaviour) : List MonitorCall → Except JsError α → Eff α
  | [], r => Eff.ofExcept r
  | c :: cs, r => fun tr =>
    if m tr c then (.error .monitorFailure, tr ++ [c]) else replay m cs r (tr ++ [c])

/-- The body `{data: [{type: "Sensor", filling: 80}]}`. -/
def sensorBody : JsVal :=
  .obj [("data", .arr [.obj [("type", .str "Sensor"), ("filling", .num 80)]])]

/-- The body `{data: [{humidity: 0}]}`. -/
def humidityZeroBody : JsVal :=
  .obj [("data", .arr [.obj [("humidity", .num 0)]])]

/-- A family of computations, one per monitor behaviour, has a plan when it
attempts a fixed list of calls and ends with a fixed result unless a call
throws. -/
def HasPlan {α : Type} (f : MonitorBehaviour → Eff α) : Prop :=
  ∃ (cs : List MonitorCall) (r : Except JsError α), ∀ m tr, f m tr = replay m cs r tr

/-- A monitor whose second call of a request (the first broadcast) throws. -/
def failsOnSecondCall : MonitorBehaviour := fun tr _ => tr.length == 1

/-- The body `{data: [{type: "A"}, {type: "B"}]}`. -/
def twoItemsBody : JsVal :=
  .obj [("data", .arr [.obj [("type", .str "A")], .obj [("type", .str "B")]])]

/-! ## Bodies without the expected structure -/

/-- A value that is a number, a boolean, a string or an array: reading any of
the allow-listed attributes from it gives `undefined`. -/
def noAttributes : JsVal → Bool
  | .num _ => true
  | .bool _ => true
  | .str _ => true
  | .arr _ => true
  | _ => false

/-- The body `{data: [null]}`. -/
def nullItemBody : JsVal := .obj [("data", .arr [.null])]

/-- The body `{data: {a: {type: "Sensor"}}}`. -/
def objectDataBody : JsVal := .obj [("data", .obj [("a", .obj [("type", .str "Sensor")])])]

/-- The body `{data: [5, {type: "Sensor"}]}`. -/
def mixedItemsBody : JsVal := .obj [("data", .arr [.num 5, .obj [("type", .str "Sensor")]])]

/-- The iteratee the handler passes to `_.forEach`, with a monitor that never
throws. -/
def itemStep (t : String) (item : JsVal) : Eff JsVal := do
  broadcastEvents reliable t item NOTIFY_ATTRIBUTES
  pure .undefined

/-! ## Configuration read from the process environment -/

/-- The environment variables this file reads; a variable is unset (`none`) or
holds a string. -/
structure ProcessEnv where
  AUTHZFORCE_ENABLED : Option String
  PIG_COUNT : Option String
  CRATE_DB_SERVICE_URL : Option String
  STH_COMET_SERVICE_URL : Option String

/-- The value of `process.env.NAME`: `undefined` when unset, else the string. -/
def envValue : Option String → JsVal
  | none => .undefined
  | some s => .str s

/-- The constant `AUTHZFORCE_ENABLED = process.env.AUTHZFORCE_ENABLED || false`. -/
def AUTHZFORCE_ENABLED (env : ProcessEnv) : JsVal :=
  jsOr (envValue env.AUTHZFORCE_ENABLED) (.bool false)

/-- The constant `numberOfPigs = process.env.PIG_COUNT || 5`. -/
def numberOfPigs (env : ProcessEnv) : JsVal :=
  jsOr (envValue env.PIG_COUNT) (.num 5)

/-! ## The guarded routes `/app/price-change` and `/app/order-stock` -/

/-- What an Express middleware called with `(req, res, next)` did. -/
inductive Control where
  /-- It called `next()`: the following handler of the route runs. -/
  | next : Control
  /-- It ended the request itself with a status and never called `next`. -/
  | halted (status : Nat) : Control
  /-- It failed: it threw, or passed an error on. -/
  | failed (reason : String) : Control
  deriving DecidableEq, Repr

/-- The external functions the two routes call. -/
inductive Callee where
  | authorizeBasicPDP : Callee
  | authorizeAdvancedXACML : Callee
  | priceChange : Callee
  | orderStock : Callee
  deriving DecidableEq, Repr

/-- The controller `Security`, external to this file: its two policy decision
points, as the outcome each has on a request. -/
structure Security (Req : Type) where
  authorizeBasicPDP : Req → Control
  authorizeAdvancedXACML : Req → Control

/-- The controller `Farm`, external to this file: the protected handlers. -/
structure Farm (Req : Type) where
  priceChange : Req → Control
  orderStock : Req → Control

/-- The run of a route or of one of its handlers: the external functions
invoked, in order, and the outcome. -/
structure Run where
  invoked : List Callee
  outcome : Control
  deriving DecidableEq, Repr

/-- Invoking one external function on the request. -/
def invoke {Req : Type} (c : Callee) (f : Req → Control) (req : Req) : Run :=
  ⟨[c], f req⟩

/-- The first handler of `/app/price-change`:
`AUTHZFORCE_ENABLED ? Security.authorizeAdvancedXACML(req, res, next)
                    : Security.authorizeBasicPDP(req, res, next)`. -/
def priceChangeGuard {Req : Type} (env : ProcessEnv) (sec : Security Req) (req : Req) : Run :=
  if truthy (AUTHZFORCE_ENABLED env) then
    invoke .authorizeAdvancedXACML sec.authorizeAdvancedXACML req
  else
    invoke .authorizeBasicPDP sec.authorizeBasicPDP req

/-- The first handler of `/app/order-stock`, the same conditional. -/
def orderStockGuard {Req : Type} (env : ProcessEnv) (sec : Security Req) (req : Req) : Run :=
  if truthy (AUTHZFORCE_ENABLED env) then
    invoke .authorizeAdvancedXACML sec.authorizeAdvancedXACML req
  else
    invoke .authorizeBasicPDP sec.authorizeBasicPDP req

/-- Express dispatch of `router.get(path, first, second)`: the second handler
runs exactly when the first one called `next()`. -/
def route {Req : Type} (first second : Req → Run) (req : Req) : Run :=
  match first req with
  | ⟨calls, .next⟩ =>
    match second req with
    | ⟨calls2, outcome⟩ => ⟨calls ++ calls2, outcome⟩
  | r => r

/-- The route `router.get('/app/price-change', guard, Farm.priceChange)`. -/
def priceChangeRoute {Req : Type} (env : ProcessEnv) (sec : Security Req) (farm : Farm Req) :
    Req → Run :=
  route (priceChangeGuard env sec) (invoke .priceChange farm.priceChange)

/-- The route `router.get('/app/order-stock', guard, Farm.orderStock)`. -/
def orderStockRoute {Req : Type} (env : ProcessEnv) (sec : Security Req) (farm : Farm Req) :
    Req → Run :=
  route (orderStockGuard env sec) (invoke .orderStock farm.orderStock)

/-- A sample `Security`: the basic PDP lets every request pass, the XACML PDP
denies every request with status 403. -/
def sampleSecurity : Security Unit :=
  ⟨fun _ => .next, fun _ => .halted 403⟩

/-- A sample `Farm` whose handlers end the request with status 200. -/
def sampleFarm : Farm Unit :=
  ⟨fun _ => .halted 200, fun _ => .halted 200⟩

/-- An environment in which only `AUTHZFORCE_ENABLED` is set, to the given
value. -/
def envWithAuthzforce (v : Option String) : ProcessEnv :=
  ⟨v, none, none, none⟩

/-- A sample `Security` whose XACML PDP fails and whose basic PDP passes. -/
def failingSecurity : Security Unit :=
  ⟨fun _ => .next, fun _ => .failed "timeout"⟩

/-! ## The device list of `GET /device/history` -/

/-- A JavaScript number as a comparison operand: the result of ECMAScript
`ToNumber`. -/
inductive JsNumber where
  | nan : JsNumber
  | posInf : JsNumber
  | negInf : JsNumber
  | finite (q : ℚ) : JsNumber

/-- The comparison `i <= y` of the loop counter with a number: false against
`NaN`. -/
def leNumber (i : Nat) : JsNumber → Bool
  | .nan => false
  | .posInf => true
  | .negInf => false
  | .finite q => decide ((i : ℚ) ≤ q)

/-- JavaScript `s.padStart(targetLength, padString)`. -/
def padStart (s : String) (targetLength : Nat) (padString : String) : String :=
  if targetLength ≤ s.length ∨ padString = "" then s
  else
    String.mk (((List.replicate (targetLength - s.length) padString.toList).flatten).take
      (targetLength - s.length)) ++ s

/-- JavaScript `i.toString()` of a loop counter: its decimal digits, the form
`toString` gives every non-negative integer below 10^21. -/
def numberToString (i : Nat) : String := Nat.repr i

/-- An entry of the `stores` list. -/
structure Store where
  name : String
  href : String
  deriving DecidableEq, Repr

/-- The call `res.render(view, {title, stores})`. -/
structure Rendered where
  view : String
  title : String
  stores : List Store
  deriving DecidableEq, Repr

/-- The number a list of decimal digits denotes. -/
def digitsValue (cs : List Char) : Nat :=
  cs.foldl (fun a c => 10 * a + (c.toNat - 48)) 0

/-- The integer a string denotes when it is a non-empty string of decimal
digits whose value is below 2^53, so that the value is a JavaScript number
exactly. -/
def decimalValue (s : String) : Option Nat :=
  if s.data ≠ [] ∧ s.data.all Char.isDigit = true
      ∧ digitsValue s.data < 9007199254740992 then
    some (digitsValue s.data)
  else none

/-- ECMAScript `ToNumber`.  `undefined` gives `NaN`, `null` gives 0, a boolean
0 or 1, a number itself, and a string of decimal digits (leading zeros
allowed) the integer it denotes.  The conversion of every other string and of
arrays and objects is the parameter `other`. -/
def toNumber (other : JsVal → JsNumber) : JsVal → JsNumber
  | .undefined => .nan
  | .null => .finite 0
  | .bool b => .finite (if b then 1 else 0)
  | .num q => .finite q
  | .str s =>
    match decimalValue s with
    | some n => .finite (n : ℚ)
    | none => other (.str s)
  | .arr xs => other (.arr xs)
  | .obj kvs => other (.obj kvs)

/-- The loop `for (let i = 1; i <= numberOfPigs; i++) { stores.push(...) }`,
started at counter `i` with the list built so far; `fuel` bounds the number of
evaluations of the loop condition, and `none` means the bound was reached.
The comparison applies `ToNumber` to `numberOfPigs`.  A `push` onto an array of
2^32 - 1 elements raises a `RangeError`.  The handler starts the loop at 1 with
the empty list, so the counter is the length of the list plus one: it stays
at or below 2^32, where `i++` is exact. -/
def historyLoop (other : JsVal → JsNumber) (pigs : JsVal) :
    Nat → Nat → List Store → Option (Except JsError (List Store))
  | 0, _, _ => none
  | fuel + 1, i, stores =>
    if leNumber i (toNumber other pigs) then
      if stores.length < 4294967295 then
        historyLoop other pigs fuel (i + 1)
          (stores ++ [⟨"Device" ++ padStart (numberToString i) 3 "0",
                       "history/" ++ padStart (numberToString i) 3 "0"⟩])
      else some (.error .rangeError)
    else some (.ok stores)

/-- The handler of `GET /device/history`: the view it renders, or the
exception that leaves it. -/
def deviceHistoryHandler (other : JsVal → JsNumber) (env : ProcessEnv) (fuel : Nat) :
    Option (Except JsError Rendered) :=
  let stores : Option (Except JsError (List Store)) :=
    if truthy (jsOr (envValue env.CRATE_DB_SERVICE_URL) (envValue env.STH_COMET_SERVICE_URL)) then
      historyLoop other (numberOfPigs env) fuel 1 []
    else some (.ok [])
  stores.map fun r => r.map fun st => ⟨"history-index", "Short-Term History", st⟩

/-- The decimal representation of `i` left-padded with '0' to at least three
characters. -/
def paddedDecimal (i : Nat) : String :=
  String.mk (List.replicate (3 - (Nat.repr i).length) '0') ++ Nat.repr i

/-- The entry of the device list for device number `i`. -/
def deviceEntry (i : Nat) : Store :=
  ⟨"Device" ++ paddedDecimal i, "history/" ++ paddedDecimal i⟩

/-- A stand-in, in the examples, for the conversions `toNumber` leaves to its
parameter. -/
def otherNaN : JsVal → JsNumber := fun _ => .nan

/-- An environment in which `CRATE_DB_SERVICE_URL` is set and `PIG_COUNT` has
the given value. -/
def crateEnv (pigCount : Option String) : ProcessEnv :=
  ⟨none, pigCount, some "http://crate-db:4200", none⟩

/-- An environment in which `CRATE_DB_SERVICE_URL` is set to the empty string
and nothing else is set. -/
def emptyCrateEnv : ProcessEnv :=
  ⟨none, none, some "", none⟩

/-! ## Basic facts about the effect monad -/

theorem bind_run {α β : Type} (x : Eff α) (f : α → Eff β) (tr : List MonitorCall) :
    (x >>= f) tr = match x tr with
      | (.error e, tr1) => (.error e, tr1)
      | (.ok a, tr1) => f a tr1 := rfl

theorem pure_run {α : Type} (a : α) (tr : List MonitorCall) :
    (pure a : Eff α) tr = (.ok a, tr) := rfl

theorem ofExcept_run {α : Type} (r : Except JsError α) (tr : List MonitorCall) :
    Eff.ofExcept r tr = (r, tr) := rfl

theorem monitor_reliable (c : MonitorCall) (tr : List MonitorCall) :
    monitor reliable c tr = (.ok .undefined, tr ++ [c]) := by
  simp [monitor, reliable]

theorem arrayEach_nil {α : Type} (it : α → Eff JsVal) (tr : List MonitorCall) :
    arrayEach it [] tr = (.ok (), tr) := rfl

theorem arrayEach_cons {α : Type} (it : α → Eff JsVal) (x : α) (xs : List α)
    (tr : List MonitorCall) :
    arrayEach it (x :: xs) tr = match it x tr with
      | (.error e, tr1) => (.error e, tr1)
      | (.ok (.bool false), tr1) => (.ok (), tr1)
      | (.ok _, tr1) => arrayEach it xs tr1 := by
  simp only [arrayEach, bind_run]
  rcases it x tr with ⟨r, tr1⟩
  cases r with
  | error e => rfl
  | ok v =>
    cases v with
    | bool b => cases b <;> rfl
    | _ => rfl

/-- An iteratee that returns `undefined` after appending the calls `f x` makes
`arrayEach` append the calls of all elements in order. -/
theorem arrayEach_emit {α : Type} (it : α → Eff JsVal) (f : α → List MonitorCall)
    (h : ∀ x tr, it x tr = (.ok .undefined, tr ++ f x)) (xs : List α) :
    ∀ tr, arrayEach it xs tr = (.ok (), tr ++ xs.flatMap f) := by
  induction xs with
  | nil => intro tr; simp [arrayEach_nil]
  | cons x xs ih => intro tr; simp [arrayEach_cons, h, ih]

theorem broadcastOne_reliable_obj (message : String) (kvs : List (String × JsVal))
    (name : String) (tr : List MonitorCall) :
    broadcastOne reliable message (.obj kvs) name tr
      = (.ok .undefined, tr ++ emitted message kvs name) := by
  simp only [broadcastOne, bind_run, ofExcept_run, getProp, emitted]
  by_cases h : truthy (ownProp kvs name) = true
  · simp [h, bind_run, monitor_reliable, pure_run]
  · simp [h, pure_run]

theorem broadcastEvents_reliable_obj (t : String) (kvs : List (String × JsVal))
    (types : List String) (tr : List MonitorCall) :
    broadcastEvents reliable t (.obj kvs) types tr
      = (.ok (), tr ++ types.flatMap (emitted (t ++ " received") kvs)) := by
  simp only [broadcastEvents]
  exact arrayEach_emit _ _ (broadcastOne_reliable_obj _ kvs) types tr

theorem flatMap_emitted (t : String) (kvs : List (String × JsVal)) (names : List String) :
    names.flatMap (emitted (t ++ " received") kvs)
      = names.filterMap fun name =>
          match kvs.lookup name with
          | some v => if truthy v then some ⟨v, t ++ " received", none⟩ else none
          | none => none := by
  induction names with
  | nil => rfl
  | cons name names ih =>
    rw [List.flatMap_cons, ih, List.filterMap_cons]
    unfold emitted ownProp
    cases hl : kvs.lookup name with
    | none => simp [truthy]
    | some v => by_cases hv : truthy v = true <;> simp [hv]

theorem emitted_eq_expected (t : String) (kvs : List (String × JsVal)) :
    NOTIFY_ATTRIBUTES.flatMap (emitted (t ++ " received") kvs) = expectedBroadcasts t kvs :=
  flatMap_emitted t kvs NOTIFY_ATTRIBUTES

theorem subscriptionHandler_reliable_items (t : String) (body : JsVal)
    (items : List (List (String × JsVal)))
    (h : getProp body "data" = .ok (.arr (items.map JsVal.obj))) :
    subscriptionHandler reliable t body []
      = (.ok ⟨204, none⟩,
         ⟨.str "notify", t ++ " received", some body⟩ :: items.flatMap (expectedBroadcasts t)) := by
  have hit : ∀ (x : List (String × JsVal)) (tr : List MonitorCall),
      ((fun item : JsVal => (do
          broadcastEvents reliable t item NOTIFY_ATTRIBUTES
          pure JsVal.undefined : Eff JsVal)) ∘ JsVal.obj) x tr
        = (.ok .undefined, tr ++ expectedBroadcasts t x) := by
    intro x tr
    simp only [Function.comp, bind_run, broadcastEvents_reliable_obj, pure_run,
      emitted_eq_expected]
  have hmap : ∀ (it : JsVal → Eff JsVal) (xs : List (List (String × JsVal))),
      arrayEach it (xs.map JsVal.obj) = arrayEach (it ∘ JsVal.obj) xs := by
    intro it xs
    induction xs with
    | nil => rfl
    | cons x xs ih => funext tr; simp only [List.map_cons, arrayEach_cons, ih, Function.comp]
  simp only [subscriptionHandler, bind_run, monitor_reliable, ofExcept_run, h, forEach, hmap,
    arrayEach_emit _ _ hit, pure_run, List.nil_append, List.singleton_append]

/-- Claim C1: with a monitor that returns normally, for every subscription type
`t` and every body whose `data` is a sequence of items, the handler of
`POST /subscription/:type` responds 204 after making exactly these monitor
calls: first `('notify', t + ' received', body)`, then per item in order and
per allow-list name in the fixed order one call `(item[name], t + ' received')`
exactly when the item has that attribute with a truthy value.  One item gives
at most five broadcasts, each for an allow-listed attribute of the item. -/
theorem subscription_calls_exact (t : String) (body : JsVal)
    (items : List (List (String × JsVal)))
    (h : getProp body "data" = .ok (.arr (items.map JsVal.obj))) :
    subscriptionHandler reliable t body []
        = (.ok ⟨204, none⟩,
           ⟨.str "notify", t ++ " received", some body⟩ :: items.flatMap (expectedBroadcasts t))
    ∧ ∀ item ∈ items, ∀ tr : List MonitorCall, ∃ calls : List MonitorCall,
        broadcastEvents reliable t (.obj item) NOTIFY_ATTRIBUTES tr = (.ok (), tr ++ calls)
        ∧ calls = expectedBroadcasts t item
        ∧ calls.length ≤ 5
        ∧ ∀ c ∈ calls,
            ∃ name ∈ ["controlledAsset", "type", "filling", "humidity", "temperature"],
              item.lookup name = some c.name ∧ truthy c.name = true
                ∧ c.payload = t ++ " received" ∧ c.object = none := by
  refine ⟨subscriptionHandler_reliable_items t body items h, ?_⟩
  intro item _ tr
  refine ⟨expectedBroadcasts t item, ?_, rfl, ?_, ?_⟩
  · rw [broadcastEvents_reliable_obj, emitted_eq_expected]
  · exact le_trans (List.length_filterMap_le _ _) (by simp)
  · intro c hc
    unfold expectedBroadcasts at hc
    rw [List.mem_filterMap] at hc
    obtain ⟨name, hname, hsome⟩ := hc
    refine ⟨name, hname, ?_⟩
    cases hl : item.lookup name with
    | none => simp [hl] at hsome
    | some v =>
      by_cases hv : truthy v = true
      · simp only [hl, hv, if_true, Option.some.injEq] at hsome
        subst hsome
        exact ⟨rfl, hv, rfl, rfl⟩
      · simp [hl, hv] at hsome

theorem subscription_calls_exact_witness :
    subscriptionHandler reliable "Animal"
        (.obj [("data", .arr [.obj [("type", .str "Animal"), ("humidity", .num 0)]])]) []
      = (.ok ⟨204, none⟩,
         ⟨.str "notify", "Animal" ++ " received",
           some (.obj [("data", .arr [.obj [("type", .str "Animal"), ("humidity", .num 0)]])])⟩ ::
           [[("type", JsVal.str "Animal"), ("humidity", JsVal.num 0)]].flatMap
             (expectedBroadcasts "Animal")) :=
  (subscription_calls_exact "Animal"
    (.obj [("data", .arr [.obj [("type", .str "Animal"), ("humidity", .num 0)]])])
    [[("type", JsVal.str "Animal"), ("humidity", JsVal.num 0)]] rfl).1

/-- Claim C7: with a monitor that returns normally, for every subscription type
`t` and every body whose `data` is absent or an empty sequence, the handler
makes the log call `monitor('notify', t + ' received', body)` exactly once,
makes no broadcast, and responds with status 204 and an empty body. -/
theorem subscription_without_items (t : String) (body : JsVal)
    (h : getProp body "data" = .ok .undefined ∨ getProp body "data" = .ok (.arr [])) :
    subscriptionHandler reliable t body []
      = (.ok ⟨204, none⟩, [⟨.str "notify", t ++ " received", some body⟩]) := by
  rcases h with h | h <;>
    simp only [subscriptionHandler, bind_run, monitor_reliable, ofExcept_run, h, forEach,
      arrayEach_nil, pure_run, List.nil_append]

theorem subscription_without_items_witness :
    subscriptionHandler reliable "Sensor" (.obj []) []
        = (.ok ⟨204, none⟩, [⟨.str "notify", "Sensor" ++ " received", some (.obj [])⟩])
      ∧ subscriptionHandler reliable "Sensor" (.obj [("data", .arr [])]) []
        = (.ok ⟨204, none⟩,
           [⟨.str "notify", "Sensor" ++ " received", some (.obj [("data", .arr [])])⟩]) :=
  ⟨subscription_without_items "Sensor" (.obj []) (Or.inl rfl),
   subscription_without_items "Sensor" (.obj [("data", .arr [])]) (Or.inr rfl)⟩

/-- Claim C3: for every item and every attribute name (so for every
allow-listed one), `broadcastEvents` emits no broadcast for that name when the item's value for
it is 0, the empty string, false or missing, and exactly one, carrying the
value, for every other string, number or boolean value; the calls of
`broadcastEvents` are those of its names in order, and the body
`{data: [{humidity: 0}]}` produces no broadcast at all. -/
theorem falsy_attribute_suppressed (t : String) (kvs : List (String × JsVal)) (name : String)
    (tr : List MonitorCall) :
    broadcastEvents reliable t (.obj kvs) NOTIFY_ATTRIBUTES tr
        = (.ok (), tr ++ NOTIFY_ATTRIBUTES.flatMap (emitted (t ++ " received") kvs))
    ∧ ((kvs.lookup name = none ∨ kvs.lookup name = some (.num 0)
          ∨ kvs.lookup name = some (.str "") ∨ kvs.lookup name = some (.bool false)) →
        emitted (t ++ " received") kvs name = []
        ∧ broadcastOne reliable (t ++ " received") (.obj kvs) name tr = (.ok .undefined, tr))
    ∧ (∀ v : JsVal, kvs.lookup name = some v →
        ((∃ s : String, v = .str s ∧ s ≠ "") ∨ (∃ q : ℚ, v = .num q ∧ q ≠ 0)
          ∨ v = .bool true) →
        emitted (t ++ " received") kvs name = [⟨v, t ++ " received", none⟩]
        ∧ broadcastOne reliable (t ++ " received") (.obj kvs) name tr
            = (.ok .undefined, tr ++ [⟨v, t ++ " received", none⟩]))
    ∧ subscriptionHandler reliable t humidityZeroBody []
        = (.ok ⟨204, none⟩, [⟨.str "notify", t ++ " received", some humidityZeroBody⟩]) := by
  refine ⟨broadcastEvents_reliable_obj t kvs NOTIFY_ATTRIBUTES tr, ?_, ?_, rfl⟩
  · intro h
    have he : emitted (t ++ " received") kvs name = [] := by
      rcases h with h | h | h | h <;> simp [emitted, ownProp, h, truthy]
    refine ⟨he, ?_⟩
    rw [broadcastOne_reliable_obj, he, List.append_nil]
  · intro v hv hkind
    have he : emitted (t ++ " received") kvs name = [⟨v, t ++ " received", none⟩] := by
      rcases hkind with ⟨s, rfl, hs⟩ | ⟨q, rfl, hq⟩ | rfl <;>
        simp [emitted, ownProp, hv, truthy, *]
    refine ⟨he, ?_⟩
    rw [broadcastOne_reliable_obj, he]

theorem falsy_attribute_suppressed_witness :
    emitted ("Sensor" ++ " received") [("humidity", .num 0), ("type", .str "Sensor")] "humidity"
        = []
      ∧ emitted ("Sensor" ++ " received") [("humidity", .num 0), ("type", .str "Sensor")] "type"
        = [⟨.str "Sensor", "Sensor" ++ " received", none⟩] :=
  ⟨((falsy_attribute_suppressed "Sensor" [("humidity", .num 0), ("type", .str "Sensor")]
      "humidity" []).2.1 (Or.inr (Or.inl rfl))).1,
   ((falsy_attribute_suppressed "Sensor" [("humidity", .num 0), ("type", .str "Sensor")]
      "type" []).2.2.1 (.str "Sensor") rfl
      (Or.inl ⟨"Sensor", rfl, by decide⟩)).1⟩

/-- Counterexample to claim C2 as stated: for `{data: [{type: "Sensor", filling: 80}]}`
the second broadcast is made on the number 80, the value of `filling` as
received; no call is made on the string "80". -/
theorem sensor_channel_is_number :
    (subscriptionHandler reliable "Sensor" sensorBody []).2
        = [⟨.str "notify", "Sensor received", some sensorBody⟩,
           ⟨.str "Sensor", "Sensor received", none⟩,
           ⟨.num 80, "Sensor received", none⟩]
      ∧ ∀ c ∈ (subscriptionHandler reliable "Sensor" sensorBody []).2, c.name ≠ .str "80" := by
  have h : (subscriptionHandler reliable "Sensor" sensorBody []).2
        = [⟨.str "notify", "Sensor received", some sensorBody⟩,
           ⟨.str "Sensor", "Sensor received", none⟩,
           ⟨.num 80, "Sensor received", none⟩] := rfl
  refine ⟨h, ?_⟩
  intro c hc
  rw [h] at hc
  simp only [List.mem_cons, List.mem_singleton, List.not_mem_nil, or_false] at hc
  rcases hc with rfl | rfl | rfl
  · simp
  · simp
  · simp

/-- Claim C2 as amended: for `{data: [{type: "Sensor", filling: 80}]}` and any
subscription type `t` the handler makes, after the log call, exactly two
broadcasts, both with message `t + ' received'`: one on the string "Sensor"
and one on the number 80. -/
theorem sensor_body_two_broadcasts (t : String) :
    subscriptionHandler reliable t sensorBody []
      = (.ok ⟨204, none⟩,
         [⟨.str "notify", t ++ " received", some sensorBody⟩,
          ⟨.str "Sensor", t ++ " received", none⟩,
          ⟨.num 80, t ++ " received", none⟩]) := rfl

/-! ## Runs under an arbitrary monitor behaviour -/

theorem replay_nil {α : Type} (m : MonitorBehaviour) (r : Except JsError α)
    (tr : List MonitorCall) : replay m [] r tr = (r, tr) := rfl

theorem replay_cons {α : Type} (m : MonitorBehaviour) (c : MonitorCall) (cs : List MonitorCall)
    (r : Except JsError α) (tr : List MonitorCall) :
    replay m (c :: cs) r tr
      = if m tr c then (.error .monitorFailure, tr ++ [c]) else replay m cs r (tr ++ [c]) := rfl

theorem replay_reliable {α : Type} (cs : List MonitorCall) (r : Except JsError α) :
    ∀ tr, replay reliable cs r tr = (r, tr ++ cs) := by
  induction cs with
  | nil => intro tr; simp [replay_nil]
  | cons c cs ih => intro tr; simp [replay_cons, reliable, ih]

theorem replay_bind_error {α β : Type} (m : MonitorBehaviour) (e : JsError) (g : α → Eff β)
    (cs : List MonitorCall) :
    ∀ tr, (replay m cs (.error e : Except JsError α) >>= g) tr = replay m cs (.error e) tr := by
  induction cs with
  | nil => intro tr; rfl
  | cons c cs ih =>
    intro tr
    have h := ih (tr ++ [c])
    rw [bind_run] at h ⊢
    rw [replay_cons, replay_cons]
    by_cases hm : m tr c = true
    · simp [hm]
    · simp only [hm, Bool.false_eq_true, if_false]
      exact h

theorem replay_bind_ok {α β : Type} (m : MonitorBehaviour) (a : α) (g : α → Eff β)
    (cs2 : List MonitorCall) (r2 : Except JsError β) (hg : ∀ tr, g a tr = replay m cs2 r2 tr)
    (cs : List MonitorCall) :
    ∀ tr, (replay m cs (.ok a) >>= g) tr = replay m (cs ++ cs2) r2 tr := by
  induction cs with
  | nil => intro tr; rw [bind_run, replay_nil]; exact hg tr
  | cons c cs ih =>
    intro tr
    have h := ih (tr ++ [c])
    rw [bind_run] at h ⊢
    rw [List.cons_append, replay_cons, replay_cons]
    by_cases hm : m tr c = true
    · simp [hm]
    · simp only [hm, Bool.false_eq_true, if_false]
      exact h

theorem hasPlan_ofExcept {α : Type} (r : Except JsError α) :
    HasPlan (fun _ => Eff.ofExcept r) := ⟨[], r, fun _ _ => rfl⟩

theorem hasPlan_pure {α : Type} (a : α) : HasPlan (fun _ => (pure a : Eff α)) :=
  ⟨[], .ok a, fun _ _ => rfl⟩

theorem hasPlan_monitor (c : MonitorCall) : HasPlan (fun m => monitor m c) := by
  refine ⟨[c], .ok .undefined, fun m tr => ?_⟩
  simp only [monitor, replay_cons, replay_nil]

theorem hasPlan_bind {α β : Type} (f : MonitorBehaviour → Eff α)
    (g : MonitorBehaviour → α → Eff β) (hf : HasPlan f) (hg : ∀ a, HasPlan (fun m => g m a)) :
    HasPlan (fun m => f m >>= g m) := by
  obtain ⟨cs, r, hcs⟩ := hf
  have hfm : ∀ m, f m = replay m cs r := fun m => funext (hcs m)
  cases r with
  | error e =>
    refine ⟨cs, .error e, fun m tr => ?_⟩
    simp only [hfm]
    exact replay_bind_error m e (g m) cs tr
  | ok a =>
    obtain ⟨cs2, r2, hcs2⟩ := hg a
    refine ⟨cs ++ cs2, r2, fun m tr => ?_⟩
    simp only [hfm]
    exact replay_bind_ok m a (g m) cs2 r2 (hcs2 m) cs tr

theorem hasPlan_arrayEach {α : Type} (it : MonitorBehaviour → α → Eff JsVal)
    (hit : ∀ x, HasPlan (fun m => it m x)) (xs : List α) :
    HasPlan (fun m => arrayEach (it m) xs) := by
  induction xs with
  | nil => exact hasPlan_pure ()
  | cons x xs ih =>
    have h := hasPlan_bind (fun m => it m x)
      (fun m r => match r with
        | .bool false => pure ()
        | _ => arrayEach (it m) xs) (hit x) (by
        intro a
        cases a with
        | bool b => cases b <;> first | exact hasPlan_pure () | exact ih
        | _ => exact ih)
    exact h

theorem hasPlan_forEach (it : MonitorBehaviour → JsVal → Eff JsVal)
    (hit : ∀ x, HasPlan (fun m => it m x)) (collection : JsVal) :
    HasPlan (fun m => forEach collection (it m)) := by
  cases collection with
  | undefined => exact hasPlan_pure ()
  | null => exact hasPlan_pure ()
  | bool b => exact hasPlan_pure ()
  | num q => exact hasPlan_pure ()
  | str s => exact hasPlan_arrayEach it hit _
  | arr xs => exact hasPlan_arrayEach it hit xs
  | obj kvs =>
    simp only [forEach]
    cases isLength (ownProp kvs "length") with
    | none => exact hasPlan_arrayEach it hit _
    | some n => exact hasPlan_arrayEach it hit _

theorem hasPlan_broadcastOne (message : String) (item : JsVal) (type : String) :
    HasPlan (fun m => broadcastOne m message item type) := by
  unfold broadcastOne
  refine hasPlan_bind _ (fun m v => if truthy v then (do
      let _ ← monitor m ⟨v, message, none⟩
      pure JsVal.undefined) else pure JsVal.undefined) (hasPlan_ofExcept _) ?_
  intro v
  by_cases hv : truthy v = true
  · simp only [hv, if_true]
    exact hasPlan_bind _ (fun _ _ => pure JsVal.undefined) (hasPlan_monitor _)
      (fun _ => hasPlan_pure _)
  · simp only [hv, Bool.false_eq_true, if_false]
    exact hasPlan_pure _

theorem hasPlan_broadcastEvents (t : String) (item : JsVal) (types : List String) :
    HasPlan (fun m => broadcastEvents m t item types) :=
  hasPlan_arrayEach _ (fun ty => hasPlan_broadcastOne _ item ty) types

theorem hasPlan_subscriptionHandler (t : String) (body : JsVal) :
    HasPlan (fun m => subscriptionHandler m t body) := by
  unfold subscriptionHandler
  refine hasPlan_bind _ _ (hasPlan_monitor _) (fun _ => ?_)
  refine hasPlan_bind _ _ (hasPlan_ofExcept _) (fun data => ?_)
  refine hasPlan_bind _ (fun _ _ => pure (Response.mk 204 none)) ?_ (fun _ => hasPlan_pure _)
  refine hasPlan_forEach (fun m item => (do
      broadcastEvents m t item NOTIFY_ATTRIBUTES
      pure JsVal.undefined)) (fun item => ?_) data
  exact hasPlan_bind _ (fun _ _ => pure JsVal.undefined) (hasPlan_broadcastEvents t item _)
    (fun _ => hasPlan_pure _)

/-- Under any monitor behaviour the handler attempts, in order, the calls of
its run with a monitor that never throws, until one of them throws. -/
theorem subscriptionHandler_eq_replay (m : MonitorBehaviour) (t : String) (body : JsVal)
    (tr : List MonitorCall) :
    subscriptionHandler m t body tr
      = replay m (subscriptionHandler reliable t body []).2
          (subscriptionHandler reliable t body []).1 tr := by
  obtain ⟨cs, r, h⟩ := hasPlan_subscriptionHandler t body
  have h0 := h reliable []
  simp only at h0
  rw [h0, replay_reliable, List.nil_append]
  exact h m tr

theorem replay_trace_initial {α : Type} (m : MonitorBehaviour) (r : Except JsError α)
    (cs : List MonitorCall) :
    ∀ tr, ∃ s, (replay m cs r tr).2 = tr ++ s ∧ s <+: cs := by
  induction cs with
  | nil => intro tr; exact ⟨[], by simp [replay_nil], List.prefix_rfl⟩
  | cons c cs ih =>
    intro tr
    rw [replay_cons]
    by_cases hm : m tr c = true
    · exact ⟨[c], by simp [hm], by simp⟩
    · obtain ⟨s, hs, hpre⟩ := ih (tr ++ [c])
      refine ⟨c :: s, ?_, by simpa using hpre⟩
      simp only [hm, Bool.false_eq_true, if_false, hs, List.append_assoc, List.singleton_append]

theorem replay_no_failure {α : Type} (m : MonitorBehaviour) (r : Except JsError α)
    (cs : List MonitorCall) :
    ∀ tr, (∀ pre c, pre ++ [c] <+: cs → m (tr ++ pre) c = false) →
      replay m cs r tr = (r, tr ++ cs) := by
  induction cs with
  | nil => intro tr _; simp [replay_nil]
  | cons c cs ih =>
    intro tr h
    have h0 : m tr c = false := by simpa using h [] c (by simp)
    rw [replay_cons, h0]
    simp only [Bool.false_eq_true, if_false]
    rw [ih (tr ++ [c])]
    · simp
    · intro pre c2 hpre
      have := h (c :: pre) c2 (by simpa using hpre)
      simpa using this

theorem replay_first_failure {α : Type} (m : MonitorBehaviour) (r : Except JsError α)
    (cs : List MonitorCall) :
    ∀ tr pre c, pre ++ [c] <+: cs →
      (∀ pre2 c2, pre2 ++ [c2] <+: pre → m (tr ++ pre2) c2 = false) →
      m (tr ++ pre) c = true →
      replay m cs r tr = (.error .monitorFailure, tr ++ pre ++ [c]) := by
  induction cs with
  | nil => intro tr pre c hpre; simp at hpre
  | cons c0 cs ih =>
    intro tr pre c hpre hearlier hfail
    cases pre with
    | nil =>
      have hc : c = c0 := by
        have := hpre
        simp only [List.nil_append, List.cons_prefix_cons] at this
        exact this.1
      subst hc
      rw [replay_cons]
      simp only [List.append_nil] at hfail
      simp [hfail]
    | cons p0 pre =>
      have hp : p0 = c0 ∧ pre ++ [c] <+: cs := by simpa using hpre
      obtain ⟨rfl, hrest⟩ := hp
      have h0 : m tr p0 = false := by simpa using hearlier [] p0 (by simp)
      rw [replay_cons, h0]
      simp only [Bool.false_eq_true, if_false]
      rw [ih (tr ++ [p0]) pre c hrest]
      · simp
      · intro pre2 c2 hpre2
        have := hearlier (p0 :: pre2) c2 (by simpa using hpre2)
        simpa using this
      · simpa using hfail

/-- Counterexample to claim C5 as stated: when the publish of the first item's
broadcast throws, the second item is never processed and the handler ends with
the exception instead of the 204 response; without the failure both items are
broadcast and the response is 204. -/
theorem publish_failure_stops_handler :
    subscriptionHandler failsOnSecondCall "Sensor" twoItemsBody []
        = (.error .monitorFailure,
           [⟨.str "notify", "Sensor received", some twoItemsBody⟩,
            ⟨.str "A", "Sensor received", none⟩])
      ∧ subscriptionHandler reliable "Sensor" twoItemsBody []
        = (.ok ⟨204, none⟩,
           [⟨.str "notify", "Sensor received", some twoItemsBody⟩,
            ⟨.str "A", "Sensor received", none⟩,
            ⟨.str "B", "Sensor received", none⟩]) :=
  ⟨rfl, rfl⟩

/-- Claim C5 as amended: for every body whose `data` is a sequence of items
and under any behaviour of `monitor`, the handler attempts, in order, the log
call and then the broadcasts of every allow-listed truthy attribute of every
item.  If none of these calls throws, all of them are made and the response is
status 204 with an empty body.  If one throws, it is the last call attempted:
no later attribute or item is processed and the exception leaves the handler
in place of the 204 response. -/
theorem publish_failure_propagates (m : MonitorBehaviour) (t : String) (body : JsVal)
    (items : List (List (String × JsVal)))
    (h : getProp body "data" = .ok (.arr (items.map JsVal.obj))) :
    (subscriptionHandler m t body []).2
        <+: ⟨.str "notify", t ++ " received", some body⟩ :: items.flatMap (expectedBroadcasts t)
    ∧ ((∀ pre c, pre ++ [c]
            <+: ⟨.str "notify", t ++ " received", some body⟩
                  :: items.flatMap (expectedBroadcasts t) →
          m pre c = false) →
        subscriptionHandler m t body []
          = (.ok ⟨204, none⟩,
             ⟨.str "notify", t ++ " received", some body⟩
               :: items.flatMap (expectedBroadcasts t)))
    ∧ (∀ pre c, pre ++ [c]
            <+: ⟨.str "notify", t ++ " received", some body⟩
                  :: items.flatMap (expectedBroadcasts t) →
        (∀ pre2 c2, pre2 ++ [c2] <+: pre → m pre2 c2 = false) →
        m pre c = true →
        subscriptionHandler m t body [] = (.error .monitorFailure, pre ++ [c])) := by
  have hrun := subscriptionHandler_reliable_items t body items h
  have hrep : subscriptionHandler m t body []
      = replay m (⟨.str "notify", t ++ " received", some body⟩
            :: items.flatMap (expectedBroadcasts t))
          (.ok ⟨204, none⟩) [] := by
    rw [subscriptionHandler_eq_replay m, hrun]
  refine ⟨?_, ?_, ?_⟩
  · rw [hrep]
    obtain ⟨s, hs, hpre⟩ := replay_trace_initial m (.ok (Response.mk 204 none))
      (⟨.str "notify", t ++ " received", some body⟩ :: items.flatMap (expectedBroadcasts t)) []
    rw [hs]
    simpa using hpre
  · intro hno
    rw [hrep, replay_no_failure]
    · simp
    · simpa using hno
  · intro pre c hpre hearlier hfail
    rw [hrep,
      replay_first_failure m _ _ [] pre c hpre (by simpa using hearlier) (by simpa using hfail)]
    simp

theorem publish_failure_propagates_witness :
    subscriptionHandler failsOnSecondCall "Sensor" twoItemsBody []
        = (.error .monitorFailure,
           [⟨.str "notify", "Sensor" ++ " received", some twoItemsBody⟩]
             ++ [⟨.str "A", "Sensor" ++ " received", none⟩])
      ∧ subscriptionHandler reliable "Sensor" twoItemsBody []
        = (.ok ⟨204, none⟩,
           ⟨.str "notify", "Sensor" ++ " received", some twoItemsBody⟩
             :: [[("type", JsVal.str "A")], [("type", JsVal.str "B")]].flatMap
                  (expectedBroadcasts "Sensor")) :=
  ⟨(publish_failure_propagates failsOnSecondCall "Sensor" twoItemsBody
      [[("type", .str "A")], [("type", .str "B")]] rfl).2.2
      [⟨.str "notify", "Sensor" ++ " received", some twoItemsBody⟩]
      ⟨.str "A", "Sensor" ++ " received", none⟩
      ⟨[⟨.str "B", "Sensor" ++ " received", none⟩], rfl⟩
      (by
        intro pre2 c2 hpre2
        have hlen := hpre2.length_le
        simp only [List.length_append, List.length_singleton, List.length_nil] at hlen
        have h0 : pre2.length = 0 := by omega
        simp [failsOnSecondCall, h0])
      rfl,
   (publish_failure_propagates reliable "Sensor" twoItemsBody
      [[("type", .str "A")], [("type", .str "B")]] rfl).2.1
      (fun _ _ _ => rfl)⟩

theorem itemStep_noAttributes (t : String) (x : JsVal) (hx : noAttributes x = true)
    (tr : List MonitorCall) : itemStep t x tr = (.ok .undefined, tr) := by
  cases x with
  | num q => rfl
  | bool b => rfl
  | str s => rfl
  | arr xs => rfl
  | undefined => simp [noAttributes] at hx
  | null => simp [noAttributes] at hx
  | obj kvs => simp [noAttributes] at hx

theorem itemStep_null (t : String) (tr : List MonitorCall) :
    itemStep t .null tr = (.error .typeError, tr) := rfl

theorem itemStep_cases (t : String) (x : JsVal) (tr : List MonitorCall) :
    (∃ tr1, itemStep t x tr = (.ok .undefined, tr1)) ∨ itemStep t x tr = (.error .typeError, tr) := by
  cases x with
  | num q => exact Or.inl ⟨tr, rfl⟩
  | bool b => exact Or.inl ⟨tr, rfl⟩
  | str s => exact Or.inl ⟨tr, rfl⟩
  | arr xs => exact Or.inl ⟨tr, rfl⟩
  | undefined => exact Or.inr rfl
  | null => exact Or.inr rfl
  | obj kvs =>
    refine Or.inl ⟨tr ++ NOTIFY_ATTRIBUTES.flatMap (emitted (t ++ " received") kvs), ?_⟩
    simp only [itemStep, bind_run, broadcastEvents_reliable_obj, pure_run]

theorem arrayEach_silent {α : Type} (it : α → Eff JsVal) (xs : List α)
    (h : ∀ x ∈ xs, ∀ tr, it x tr = (.ok .undefined, tr)) :
    ∀ tr, arrayEach it xs tr = (.ok (), tr) := by
  induction xs with
  | nil => intro tr; rfl
  | cons x xs ih =>
    intro tr
    rw [arrayEach_cons, h x (by simp) tr]
    exact ih (fun y hy => h y (by simp [hy])) tr

theorem arrayEach_null (t : String) (xs : List JsVal) (hnull : JsVal.null ∈ xs) :
    ∀ tr, (arrayEach (itemStep t) xs tr).1 = .error .typeError := by
  induction xs with
  | nil => simp at hnull
  | cons x xs ih =>
    intro tr
    rw [arrayEach_cons]
    rcases itemStep_cases t x tr with ⟨tr1, h1⟩ | h1
    · rw [h1]
      have hx : x ≠ JsVal.null := by
        intro hx
        rw [hx, itemStep_null] at h1
        cases h1
      have hmem : JsVal.null ∈ xs := by
        rcases List.mem_cons.1 hnull with h | h
        · exact absurd h.symm hx
        · exact h
      exact ih hmem tr1
    · rw [h1]

theorem subscriptionHandler_reliable_run (t : String) (body data : JsVal)
    (h : getProp body "data" = .ok data) :
    subscriptionHandler reliable t body []
      = match forEach data (itemStep t) [⟨.str "notify", t ++ " received", some body⟩] with
        | (.error e, tr1) => (.error e, tr1)
        | (.ok _, tr1) => (.ok ⟨204, none⟩, tr1) := by
  have hstep : (fun item : JsVal => (do
      broadcastEvents reliable t item NOTIFY_ATTRIBUTES
      pure JsVal.undefined : Eff JsVal)) = itemStep t := rfl
  simp only [subscriptionHandler, bind_run, monitor_reliable, ofExcept_run, h, List.nil_append,
    pure_run, hstep]
  rcases forEach data (itemStep t) [⟨.str "notify", t ++ " received", some body⟩] with ⟨r, tr1⟩
  cases r <;> rfl

/-- Counterexample to claim C6 as stated: for `{data: [null]}` the handler
raises a TypeError and sends no response; for `{data: {a: {type: "Sensor"}}}`
and for `{data: [5, {type: "Sensor"}]}` it makes a broadcast on "Sensor". -/
theorem malformed_body_not_ignored :
    subscriptionHandler reliable "Sensor" nullItemBody []
        = (.error .typeError, [⟨.str "notify", "Sensor received", some nullItemBody⟩])
      ∧ subscriptionHandler reliable "Sensor" objectDataBody []
        = (.ok ⟨204, none⟩,
           [⟨.str "notify", "Sensor received", some objectDataBody⟩,
            ⟨.str "Sensor", "Sensor received", none⟩])
      ∧ subscriptionHandler reliable "Sensor" mixedItemsBody []
        = (.ok ⟨204, none⟩,
           [⟨.str "notify", "Sensor received", some mixedItemsBody⟩,
            ⟨.str "Sensor", "Sensor received", none⟩]) :=
  ⟨rfl, rfl, rfl⟩

/-- Claim C6 as amended: when `data` is absent, null, a number, a boolean, a
string, an empty object, or an array whose elements are all numbers, booleans,
strings or arrays, the handler makes the log call only (zero broadcasts) and
responds 204 without raising an error; when `data` is an array containing
null, the handler raises a TypeError and sends no response. -/
theorem malformed_data_handling (t : String) (body data : JsVal)
    (h : getProp body "data" = .ok data) :
    ((data = .undefined ∨ data = .null ∨ (∃ q, data = .num q) ∨ (∃ b, data = .bool b)
        ∨ (∃ s, data = .str s) ∨ data = .obj []
        ∨ ∃ xs, data = .arr xs ∧ ∀ x ∈ xs, noAttributes x = true) →
      subscriptionHandler reliable t body []
        = (.ok ⟨204, none⟩, [⟨.str "notify", t ++ " received", some body⟩]))
    ∧ (∀ xs, data = .arr xs → JsVal.null ∈ xs →
        (subscriptionHandler reliable t body []).1 = .error .typeError) := by
  rw [subscriptionHandler_reliable_run t body data h]
  constructor
  · intro hd
    rcases hd with rfl | rfl | ⟨q, rfl⟩ | ⟨b, rfl⟩ | ⟨s, rfl⟩ | rfl | ⟨xs, rfl, hxs⟩
    · rfl
    · rfl
    · rfl
    · rfl
    · simp only [forEach]
      rw [arrayEach_silent]
      intro x hx tr
      obtain ⟨c, _, rfl⟩ := List.mem_map.1 hx
      rfl
    · rfl
    · simp only [forEach]
      rw [arrayEach_silent]
      intro x hx tr
      exact itemStep_noAttributes t x (hxs x hx) tr
  · intro xs hdata hnull
    subst hdata
    simp only [forEach]
    have := arrayEach_null t xs hnull [⟨.str "notify", t ++ " received", some body⟩]
    revert this
    rcases arrayEach (itemStep t) xs [⟨.str "notify", t ++ " received", some body⟩] with ⟨r, tr1⟩
    intro hr
    simp only at hr
    subst hr
    rfl

theorem malformed_data_handling_witness :
    subscriptionHandler reliable "Sensor" (.obj [("data", .arr [.num 5, .str "x"])]) []
        = (.ok ⟨204, none⟩,
           [⟨.str "notify", "Sensor" ++ " received",
             some (.obj [("data", .arr [.num 5, .str "x"])])⟩])
      ∧ (subscriptionHandler reliable "Sensor" nullItemBody []).1 = .error .typeError :=
  ⟨(malformed_data_handling "Sensor" (.obj [("data", .arr [.num 5, .str "x"])])
      (.arr [.num 5, .str "x"]) rfl).1
      (Or.inr (Or.inr (Or.inr (Or.inr (Or.inr (Or.inr ⟨[.num 5, .str "x"], rfl, by
        intro x hx
        simp only [List.mem_cons, List.mem_singleton, List.not_mem_nil, or_false] at hx
        rcases hx with rfl | rfl <;> rfl⟩)))))),
   (malformed_data_handling "Sensor" nullItemBody (.arr [.null]) rfl).2 [.null] rfl
      (by simp)⟩

/-! ## Facts about the guarded routes -/

theorem truthy_AUTHZFORCE_ENABLED_unset (env : ProcessEnv)
    (h : env.AUTHZFORCE_ENABLED = none ∨ env.AUTHZFORCE_ENABLED = some "") :
    truthy (AUTHZFORCE_ENABLED env) = false := by
  rcases h with h | h <;> simp [AUTHZFORCE_ENABLED, jsOr, envValue, truthy, h]

theorem truthy_AUTHZFORCE_ENABLED_set (env : ProcessEnv) (s : String)
    (h : env.AUTHZFORCE_ENABLED = some s) (hs : s ≠ "") :
    truthy (AUTHZFORCE_ENABLED env) = true := by
  simp [AUTHZFORCE_ENABLED, jsOr, envValue, truthy, h, hs]

theorem route_of_next {Req : Type} (first second : Req → Run) (req : Req) (calls : List Callee)
    (h : first req = ⟨calls, .next⟩) :
    route first second req = ⟨calls ++ (second req).invoked, (second req).outcome⟩ := by
  simp only [route, h]

theorem route_of_halted {Req : Type} (first second : Req → Run) (req : Req)
    (calls : List Callee) (status : Nat) (h : first req = ⟨calls, .halted status⟩) :
    route first second req = ⟨calls, .halted status⟩ := by
  simp only [route, h]

theorem route_of_failed {Req : Type} (first second : Req → Run) (req : Req)
    (calls : List Callee) (reason : String) (h : first req = ⟨calls, .failed reason⟩) :
    route first second req = ⟨calls, .failed reason⟩ := by
  simp only [route, h]

/-- Counterexample to claim C4 as stated: with `AUTHZFORCE_ENABLED=false` in
the environment both guards invoke `Security.authorizeAdvancedXACML`, not the
basic PDP, and the outcome (here a denial) differs from the outcome of
`Security.authorizeBasicPDP` on the same request (here it passes). -/
theorem authzforce_false_selects_xacml :
    priceChangeGuard (envWithAuthzforce (some "false")) sampleSecurity ()
        = ⟨[.authorizeAdvancedXACML], .halted 403⟩
      ∧ orderStockGuard (envWithAuthzforce (some "false")) sampleSecurity ()
        = ⟨[.authorizeAdvancedXACML], .halted 403⟩
      ∧ sampleSecurity.authorizeBasicPDP () = .next
      ∧ priceChangeRoute (envWithAuthzforce (some "false")) sampleSecurity sampleFarm ()
        ≠ route (invoke .authorizeBasicPDP sampleSecurity.authorizeBasicPDP)
            (invoke .priceChange sampleFarm.priceChange) () := by
  decide

/-- Claim C4 as amended: when `AUTHZFORCE_ENABLED` is unset or empty, the guards
of `/app/price-change` and `/app/order-stock` invoke `Security.authorizeBasicPDP`
and both routes behave, for every request, as the same route guarded by the
basic PDP; when it is set to any non-empty string (the string "false"
included), they invoke `Security.authorizeAdvancedXACML`. -/
theorem guard_selection {Req : Type} (env : ProcessEnv) (sec : Security Req) (farm : Farm Req)
    (req : Req) :
    ((env.AUTHZFORCE_ENABLED = none ∨ env.AUTHZFORCE_ENABLED = some "") →
        priceChangeGuard env sec req = ⟨[.authorizeBasicPDP], sec.authorizeBasicPDP req⟩
        ∧ orderStockGuard env sec req = ⟨[.authorizeBasicPDP], sec.authorizeBasicPDP req⟩
        ∧ priceChangeRoute env sec farm req
            = route (invoke .authorizeBasicPDP sec.authorizeBasicPDP)
                (invoke .priceChange farm.priceChange) req
        ∧ orderStockRoute env sec farm req
            = route (invoke .authorizeBasicPDP sec.authorizeBasicPDP)
                (invoke .orderStock farm.orderStock) req)
    ∧ (∀ s : String, env.AUTHZFORCE_ENABLED = some s → s ≠ "" →
        priceChangeGuard env sec req
            = ⟨[.authorizeAdvancedXACML], sec.authorizeAdvancedXACML req⟩
        ∧ orderStockGuard env sec req
            = ⟨[.authorizeAdvancedXACML], sec.authorizeAdvancedXACML req⟩) := by
  constructor
  · intro h
    have ht := truthy_AUTHZFORCE_ENABLED_unset env h
    have hp : priceChangeGuard env sec = invoke .authorizeBasicPDP sec.authorizeBasicPDP := by
      funext r; simp [priceChangeGuard, ht]
    have ho : orderStockGuard env sec = invoke .authorizeBasicPDP sec.authorizeBasicPDP := by
      funext r; simp [orderStockGuard, ht]
    refine ⟨?_, ?_, ?_, ?_⟩
    · rw [hp]; rfl
    · rw [ho]; rfl
    · simp only [priceChangeRoute, hp]
    · simp only [orderStockRoute, ho]
  · intro s h hs
    have ht := truthy_AUTHZFORCE_ENABLED_set env s h hs
    constructor
    · simp [priceChangeGuard, ht, invoke]
    · simp [orderStockGuard, ht, invoke]

theorem guard_selection_witness :
    priceChangeGuard (envWithAuthzforce none) sampleSecurity ()
        = ⟨[.authorizeBasicPDP], sampleSecurity.authorizeBasicPDP ()⟩
      ∧ priceChangeGuard (envWithAuthzforce (some "true")) sampleSecurity ()
        = ⟨[.authorizeAdvancedXACML], sampleSecurity.authorizeAdvancedXACML ()⟩ :=
  ⟨((guard_selection (envWithAuthzforce none) sampleSecurity sampleFarm ()).1 (Or.inl rfl)).1,
   ((guard_selection (envWithAuthzforce (some "true")) sampleSecurity sampleFarm ()).2
      "true" rfl (by decide)).1⟩

/-- Claim C8: for every request and either configuration, the guard of
`/app/price-change` and of `/app/order-stock` invokes exactly one of the two
PDPs, once, and its outcome is that PDP's outcome; when that PDP fails, the
route ends with the same failure: the other PDP and the protected handler are
not invoked, and the failure is neither a denial nor a pass. -/
theorem guard_invokes_one_pdp {Req : Type} (env : ProcessEnv) (sec : Security Req)
    (farm : Farm Req) (req : Req) :
    (priceChangeGuard env sec req = ⟨[.authorizeBasicPDP], sec.authorizeBasicPDP req⟩
        ∨ priceChangeGuard env sec req
            = ⟨[.authorizeAdvancedXACML], sec.authorizeAdvancedXACML req⟩)
    ∧ (orderStockGuard env sec req = ⟨[.authorizeBasicPDP], sec.authorizeBasicPDP req⟩
        ∨ orderStockGuard env sec req
            = ⟨[.authorizeAdvancedXACML], sec.authorizeAdvancedXACML req⟩)
    ∧ (∀ (pdp : List Callee) (reason : String),
        priceChangeGuard env sec req = ⟨pdp, .failed reason⟩ →
        priceChangeRoute env sec farm req = ⟨pdp, .failed reason⟩)
    ∧ (∀ (pdp : List Callee) (reason : String),
        orderStockGuard env sec req = ⟨pdp, .failed reason⟩ →
        orderStockRoute env sec farm req = ⟨pdp, .failed reason⟩) := by
  refine ⟨?_, ?_, ?_, ?_⟩
  · by_cases ht : truthy (AUTHZFORCE_ENABLED env) = true
    · right; simp [priceChangeGuard, ht, invoke]
    · left; simp [priceChangeGuard, ht, invoke]
  · by_cases ht : truthy (AUTHZFORCE_ENABLED env) = true
    · right; simp [orderStockGuard, ht, invoke]
    · left; simp [orderStockGuard, ht, invoke]
  · intro pdp reason h
    exact route_of_failed _ _ req pdp reason h
  · intro pdp reason h
    exact route_of_failed _ _ req pdp reason h

theorem guard_invokes_one_pdp_witness :
    priceChangeRoute (envWithAuthzforce (some "true")) failingSecurity sampleFarm ()
      = ⟨[.authorizeAdvancedXACML], .failed "timeout"⟩ :=
  (guard_invokes_one_pdp (envWithAuthzforce (some "true")) failingSecurity sampleFarm ()).2.2.1
    [.authorizeAdvancedXACML] "timeout" (by decide)

/-- Claim C9: on `/app/price-change` and `/app/order-stock` the protected
handler (`Farm.priceChange`, `Farm.orderStock`) is invoked exactly when the
PDP the guard invoked called `next`; when that PDP ended the request itself (a
denial), the route stops with the PDP's outcome and the protected handler is
never invoked. -/
theorem handler_runs_only_after_next {Req : Type} (env : ProcessEnv) (sec : Security Req)
    (farm : Farm Req) (req : Req) :
    (Callee.priceChange ∈ (priceChangeRoute env sec farm req).invoked
        ↔ (priceChangeGuard env sec req).outcome = .next)
    ∧ (Callee.orderStock ∈ (orderStockRoute env sec farm req).invoked
        ↔ (orderStockGuard env sec req).outcome = .next)
    ∧ (∀ (pdp : List Callee) (status : Nat),
        priceChangeGuard env sec req = ⟨pdp, .halted status⟩ →
        priceChangeRoute env sec farm req = ⟨pdp, .halted status⟩
        ∧ Callee.priceChange ∉ (priceChangeRoute env sec farm req).invoked)
    ∧ (∀ (pdp : List Callee) (status : Nat),
        orderStockGuard env sec req = ⟨pdp, .halted status⟩ →
        orderStockRoute env sec farm req = ⟨pdp, .halted status⟩
        ∧ Callee.orderStock ∉ (orderStockRoute env sec farm req).invoked) := by
  have hp : ∃ c o, priceChangeGuard env sec req = ⟨[c], o⟩
      ∧ (c = .authorizeBasicPDP ∨ c = .authorizeAdvancedXACML) := by
    by_cases ht : truthy (AUTHZFORCE_ENABLED env) = true
    · exact ⟨.authorizeAdvancedXACML, sec.authorizeAdvancedXACML req,
        by simp [priceChangeGuard, ht, invoke], Or.inr rfl⟩
    · exact ⟨.authorizeBasicPDP, sec.authorizeBasicPDP req,
        by simp [priceChangeGuard, ht, invoke], Or.inl rfl⟩
  have ho : ∃ c o, orderStockGuard env sec req = ⟨[c], o⟩
      ∧ (c = .authorizeBasicPDP ∨ c = .authorizeAdvancedXACML) := by
    by_cases ht : truthy (AUTHZFORCE_ENABLED env) = true
    · exact ⟨.authorizeAdvancedXACML, sec.authorizeAdvancedXACML req,
        by simp [orderStockGuard, ht, invoke], Or.inr rfl⟩
    · exact ⟨.authorizeBasicPDP, sec.authorizeBasicPDP req,
        by simp [orderStockGuard, ht, invoke], Or.inl rfl⟩
  obtain ⟨c, o, hc, hck⟩ := hp
  obtain ⟨c2, o2, hc2, hck2⟩ := ho
  refine ⟨?_, ?_, ?_, ?_⟩
  · rw [hc]
    cases o with
    | next =>
      rw [priceChangeRoute, route_of_next _ _ req [c] hc]
      simp [invoke]
    | halted status =>
      rw [priceChangeRoute, route_of_halted _ _ req [c] status hc]
      rcases hck with rfl | rfl <;> simp
    | failed reason =>
      rw [priceChangeRoute, route_of_failed _ _ req [c] reason hc]
      rcases hck with rfl | rfl <;> simp
  · rw [hc2]
    cases o2 with
    | next =>
      rw [orderStockRoute, route_of_next _ _ req [c2] hc2]
      simp [invoke]
    | halted status =>
      rw [orderStockRoute, route_of_halted _ _ req [c2] status hc2]
      rcases hck2 with rfl | rfl <;> simp
    | failed reason =>
      rw [orderStockRoute, route_of_failed _ _ req [c2] reason hc2]
      rcases hck2 with rfl | rfl <;> simp
  · intro pdp status h
    have hr := route_of_halted (priceChangeGuard env sec)
      (invoke .priceChange farm.priceChange) req pdp status h
    refine ⟨hr, ?_⟩
    rw [priceChangeRoute, hr]
    rw [hc] at h
    injection h with h1 _
    subst h1
    rcases hck with rfl | rfl <;> simp
  · intro pdp status h
    have hr := route_of_halted (orderStockGuard env sec)
      (invoke .orderStock farm.orderStock) req pdp status h
    refine ⟨hr, ?_⟩
    rw [orderStockRoute, hr]
    rw [hc2] at h
    injection h with h1 _
    subst h1
    rcases hck2 with rfl | rfl <;> simp

theorem handler_runs_only_after_next_witness :
    priceChangeRoute (envWithAuthzforce (some "true")) sampleSecurity sampleFarm ()
        = ⟨[.authorizeAdvancedXACML], .halted 403⟩
      ∧ Callee.priceChange ∉
          (priceChangeRoute (envWithAuthzforce (some "true")) sampleSecurity sampleFarm ()).invoked :=
  (handler_runs_only_after_next (envWithAuthzforce (some "true")) sampleSecurity sampleFarm ()).2.2.1
    [.authorizeAdvancedXACML] 403 (by decide)

/-! ## Facts about the device list -/

theorem leNumber_finite_nat (i n : ℕ) : leNumber i (.finite (n : ℚ)) = decide (i ≤ n) := by
  simp [leNumber]

theorem flatten_replicate_singleton (k : Nat) (c : Char) :
    (List.replicate k [c]).flatten = List.replicate k c := by
  induction k with
  | zero => rfl
  | succ k ih => simp [List.replicate_succ, ih]

theorem padStart_zero (s : String) :
    padStart s 3 "0" = String.mk (List.replicate (3 - s.length) '0') ++ s := by
  unfold padStart
  by_cases h : 3 ≤ s.length
  · have h0 : 3 - s.length = 0 := by omega
    simp only [h, true_or, if_true, h0, List.replicate_zero]
    apply String.ext
    simp
  · have hne : ("0" : String) ≠ "" := by decide
    have hl : ("0" : String).toList = ['0'] := rfl
    simp only [h, hne, or_self, if_false, hl, flatten_replicate_singleton]
    congr 2
    rw [List.take_of_length_le]
    simp

theorem padStart_numberToString (i : Nat) :
    padStart (numberToString i) 3 "0" = paddedDecimal i := by
  rw [padStart_zero]; rfl

theorem historyLoop_finite (other : JsVal → JsNumber) (pigs : JsVal) (n : ℕ)
    (hn : toNumber other pigs = .finite (n : ℚ)) :
    ∀ fuel i stores, n + 1 - i < fuel → stores.length + (n + 1 - i) ≤ 4294967295 →
      historyLoop other pigs fuel i stores
        = some (.ok (stores ++ (List.range' i (n + 1 - i)).map deviceEntry)) := by
  intro fuel
  induction fuel with
  | zero => intro i stores h; omega
  | succ fuel ih =>
    intro i stores h hlen
    rw [historyLoop, hn, leNumber_finite_nat]
    by_cases hi : i ≤ n
    · have hroom : stores.length < 4294967295 := by omega
      simp only [hi, decide_True, if_true, hroom]
      rw [ih (i + 1) _ (by omega) (by simp; omega)]
      have hcount : n + 1 - i = (n + 1 - (i + 1)) + 1 := by omega
      rw [hcount, List.range'_succ]
      simp [padStart_numberToString, deviceEntry]
    · have h0 : n + 1 - i = 0 := by omega
      simp [hi, h0]

theorem historyLoop_overflow (other : JsVal → JsNumber) (pigs : JsVal) (q : ℚ)
    (hq : toNumber other pigs = .finite q) (hbig : (4294967296 : ℚ) ≤ q) :
    ∀ k fuel i stores, stores.length + k = 4294967295 → i + k ≤ 4294967296 → k < fuel →
      historyLoop other pigs fuel i stores = some (.error .rangeError) := by
  intro k
  induction k with
  | zero =>
    intro fuel i stores hlen hi hfuel
    obtain ⟨fuel, rfl⟩ : ∃ f, fuel = f + 1 := ⟨fuel - 1, by omega⟩
    have hle : (i : ℚ) ≤ q := le_trans (by exact_mod_cast hi) hbig
    have hfull : ¬ stores.length < 4294967295 := by omega
    simp [historyLoop, hq, leNumber, hle, hfull]
  | succ k ih =>
    intro fuel i stores hlen hi hfuel
    obtain ⟨fuel, rfl⟩ : ∃ f, fuel = f + 1 := ⟨fuel - 1, by omega⟩
    have hi2 : i ≤ 4294967296 := by omega
    have hle : (i : ℚ) ≤ q := le_trans (by exact_mod_cast hi2) hbig
    have hroom : stores.length < 4294967295 := by omega
    rw [historyLoop]
    simp only [hq, leNumber, hle, decide_True, if_true, hroom]
    exact ih fuel (i + 1) _ (by simp; omega) (by omega) (by omega)

theorem decimalValue_ne_empty (n : Nat) : decimalValue "" ≠ some n := by
  simp [decimalValue]

theorem toNumber_default (other : JsVal → JsNumber) (env : ProcessEnv)
    (h : env.PIG_COUNT = none ∨ env.PIG_COUNT = some "") :
    toNumber other (numberOfPigs env) = .finite ((5 : ℕ) : ℚ) := by
  rcases h with h | h <;> simp [numberOfPigs, jsOr, envValue, truthy, h, toNumber]

theorem toNumber_decimal (other : JsVal → JsNumber) (env : ProcessEnv) (s : String) (n : ℕ)
    (h : env.PIG_COUNT = some s) (hs : decimalValue s = some n) :
    toNumber other (numberOfPigs env) = .finite (n : ℚ) := by
  have hne : s ≠ "" := by
    intro he
    rw [he] at hs
    exact decimalValue_ne_empty n hs
  simp [numberOfPigs, jsOr, envValue, truthy, h, hne, toNumber, hs]

theorem digitChar_value (d : Nat) (h : d < 10) : (Nat.digitChar d).toNat - 48 = d := by
  interval_cases d <;> rfl

theorem foldl_toDigitsCore (fuel : Nat) :
    ∀ n ds, n < fuel →
      List.foldl (fun a (c : Char) => 10 * a + (c.toNat - 48)) 0 (Nat.toDigitsCore 10 fuel n ds)
        = List.foldl (fun a (c : Char) => 10 * a + (c.toNat - 48)) n ds := by
  induction fuel with
  | zero => intro n ds h; omega
  | succ fuel ih =>
    intro n ds h
    unfold Nat.toDigitsCore
    have hd := digitChar_value (n % 10) (Nat.mod_lt n (by norm_num))
    by_cases h0 : n / 10 = 0
    · have hn : n % 10 = n := Nat.mod_eq_of_lt (by omega)
      rw [hn] at hd
      simp only [h0, if_true, List.foldl_cons, hn, hd]
      simp
    · simp only [h0, if_false]
      rw [ih (n / 10) _ (by omega)]
      simp only [List.foldl_cons, hd]
      congr 1
      omega

theorem digitsValue_repr (n : Nat) : digitsValue (Nat.repr n).data = n := by
  simp only [digitsValue, Nat.repr, List.asString, Nat.toDigits]
  rw [foldl_toDigitsCore (n + 1) n [] (by omega)]
  rfl

theorem foldl_zeros (k : Nat) (ds : List Char) :
    List.foldl (fun a (c : Char) => 10 * a + (c.toNat - 48)) 0 (List.replicate k '0' ++ ds)
      = List.foldl (fun a (c : Char) => 10 * a + (c.toNat - 48)) 0 ds := by
  induction k with
  | zero => rfl
  | succ k ih => simpa [List.replicate_succ] using ih

theorem digitsValue_paddedDecimal (i : Nat) : digitsValue (paddedDecimal i).data = i := by
  have h := digitsValue_repr i
  unfold digitsValue at h ⊢
  simp only [paddedDecimal, String.data_append]
  rw [foldl_zeros]
  exact h

theorem deviceEntry_injective : Function.Injective deviceEntry := by
  intro i j h
  have hn : "Device" ++ paddedDecimal i = "Device" ++ paddedDecimal j := congrArg Store.name h
  have hd := congrArg String.data hn
  simp only [String.data_append] at hd
  have hp := List.append_cancel_left hd
  have := congrArg digitsValue hp
  rwa [digitsValue_paddedDecimal, digitsValue_paddedDecimal] at this

theorem digitChar_isDigit (d : Nat) (h : d < 10) : (Nat.digitChar d).isDigit = true := by
  interval_cases d <;> rfl

theorem toDigitsCore_all_digits (fuel : Nat) :
    ∀ n ds, (∀ c ∈ ds, Char.isDigit c = true) →
      ∀ c ∈ Nat.toDigitsCore 10 fuel n ds, Char.isDigit c = true := by
  induction fuel with
  | zero => intro n ds h; simpa [Nat.toDigitsCore] using h
  | succ fuel ih =>
    intro n ds h
    have hd := digitChar_isDigit (n % 10) (Nat.mod_lt n (by norm_num))
    have hcons : ∀ c ∈ Nat.digitChar (n % 10) :: ds, Char.isDigit c = true := by
      intro c hc
      rcases List.mem_cons.1 hc with rfl | hc
      · exact hd
      · exact h c hc
    unfold Nat.toDigitsCore
    by_cases h0 : n / 10 = 0
    · simpa only [h0, if_true] using hcons
    · simpa only [h0, if_false] using ih (n / 10) _ hcons

theorem toDigitsCore_ne_nil (fuel : Nat) :
    ∀ n ds, ds ≠ [] → Nat.toDigitsCore 10 fuel n ds ≠ [] := by
  induction fuel with
  | zero => intro n ds h; simpa [Nat.toDigitsCore] using h
  | succ fuel ih =>
    intro n ds _
    unfold Nat.toDigitsCore
    by_cases h0 : n / 10 = 0
    · simp [h0]
    · simpa only [h0, if_false] using ih (n / 10) _ (List.cons_ne_nil _ _)

theorem decimalValue_repr (n : Nat) (hn : n < 9007199254740992) :
    decimalValue (Nat.repr n) = some n := by
  have hdata : (Nat.repr n).data = Nat.toDigitsCore 10 (n + 1) n [] := rfl
  have hval := digitsValue_repr n
  have hne : Nat.toDigitsCore 10 (n + 1) n [] ≠ [] := by
    unfold Nat.toDigitsCore
    by_cases h0 : n / 10 = 0
    · simp [h0]
    · simpa only [h0, if_false] using toDigitsCore_ne_nil n (n / 10) _ (List.cons_ne_nil _ _)
  have hall : (Nat.toDigitsCore 10 (n + 1) n []).all Char.isDigit = true := by
    rw [List.all_eq_true]
    exact toDigitsCore_all_digits (n + 1) n [] (by simp)
  rw [hdata] at hval
  unfold decimalValue
  rw [hdata, hval]
  simp [hne, hall, hn]

theorem truthy_service_url_unset (env : ProcessEnv)
    (hc : env.CRATE_DB_SERVICE_URL = none ∨ env.CRATE_DB_SERVICE_URL = some "")
    (hs : env.STH_COMET_SERVICE_URL = none ∨ env.STH_COMET_SERVICE_URL = some "") :
    truthy (jsOr (envValue env.CRATE_DB_SERVICE_URL) (envValue env.STH_COMET_SERVICE_URL))
      = false := by
  rcases hc with hc | hc <;> rcases hs with hs | hs <;>
    simp [jsOr, envValue, truthy, hc, hs]

theorem truthy_service_url_set (env : ProcessEnv)
    (hset : (∃ s, env.CRATE_DB_SERVICE_URL = some s ∧ s ≠ "")
      ∨ (∃ s, env.STH_COMET_SERVICE_URL = some s ∧ s ≠ "")) :
    truthy (jsOr (envValue env.CRATE_DB_SERVICE_URL) (envValue env.STH_COMET_SERVICE_URL))
      = true := by
  rcases hset with ⟨s, hs, hne⟩ | ⟨s, hs, hne⟩
  · simp [jsOr, envValue, truthy, hs, hne]
  · by_cases hc : truthy (envValue env.CRATE_DB_SERVICE_URL) = true
    · simp [jsOr, hc]
    · have h2 : truthy (envValue env.STH_COMET_SERVICE_URL) = true := by
        simp [envValue, truthy, hs, hne]
      simp only [jsOr, hc, Bool.false_eq_true, if_false, h2]

/-- Counterexample to claim C10 as stated: with `CRATE_DB_SERVICE_URL` set to
the empty string (and `PIG_COUNT` unset, a pig count of 5) the rendered list is
empty, not five entries; and with `PIG_COUNT=4294967296` the 2^32-th `push`
raises a `RangeError`, so no list of that many entries is rendered. -/
theorem empty_url_renders_no_devices :
    deviceHistoryHandler otherNaN emptyCrateEnv 6
        = some (.ok ⟨"history-index", "Short-Term History", []⟩)
      ∧ toNumber otherNaN (numberOfPigs emptyCrateEnv) = .finite 5
      ∧ deviceHistoryHandler otherNaN (crateEnv (some "4294967296")) 4294967296
        = some (.error .rangeError) := by
  refine ⟨rfl, rfl, ?_⟩
  have ht : truthy (jsOr (envValue (crateEnv (some "4294967296")).CRATE_DB_SERVICE_URL)
      (envValue (crateEnv (some "4294967296")).STH_COMET_SERVICE_URL)) = true := by decide
  have hd : decimalValue "4294967296" = some 4294967296 := by decide
  have hq : toNumber otherNaN (numberOfPigs (crateEnv (some "4294967296")))
      = .finite ((4294967296 : ℕ) : ℚ) :=
    toNumber_decimal otherNaN _ "4294967296" 4294967296 rfl hd
  simp only [deviceHistoryHandler, ht, if_true]
  rw [historyLoop_overflow otherNaN _ _ hq (by norm_num) 4294967295 4294967296 1 []
    (by simp) (by omega) (by omega)]
  rfl

/-- Claim C10 as amended: in the handler of `GET /device/history`, when each of
`CRATE_DB_SERVICE_URL` and `STH_COMET_SERVICE_URL` is unset or empty the
rendered `stores` list is empty.  When either holds a non-empty value, let `n`
be the pig count: 5 when `PIG_COUNT` is unset or empty, and the integer
`PIG_COUNT` denotes when it is a string of decimal digits (every `n` below 2^53
has such a string, its decimal representation).  For `n` below 2^32 the loop
ends and the list has exactly `n` entries, the `i`-th being
`{name: 'Device' + p, href: 'history/' + p}` with `p` the decimal
representation of `i` left-padded with '0' to at least three characters, and
the entries are pairwise distinct.  For `n` of 2^32 or more the 2^32-th `push`
raises a `RangeError` and nothing is rendered. -/
theorem device_history_stores (other : JsVal → JsNumber) (env : ProcessEnv) :
    (((env.CRATE_DB_SERVICE_URL = none ∨ env.CRATE_DB_SERVICE_URL = some "")
        ∧ (env.STH_COMET_SERVICE_URL = none ∨ env.STH_COMET_SERVICE_URL = some "")) →
      ∀ fuel, deviceHistoryHandler other env fuel
        = some (.ok ⟨"history-index", "Short-Term History", []⟩))
    ∧ (((∃ s, env.CRATE_DB_SERVICE_URL = some s ∧ s ≠ "")
        ∨ (∃ s, env.STH_COMET_SERVICE_URL = some s ∧ s ≠ "")) →
      ∀ n : ℕ,
        (((env.PIG_COUNT = none ∨ env.PIG_COUNT = some "") ∧ n = 5)
          ∨ (∃ s, env.PIG_COUNT = some s ∧ decimalValue s = some n)) →
        (n < 4294967296 → ∀ fuel, n < fuel →
          deviceHistoryHandler other env fuel
            = some (.ok ⟨"history-index", "Short-Term History",
                (List.range' 1 n).map deviceEntry⟩)
          ∧ ((List.range' 1 n).map deviceEntry).length = n
          ∧ (∀ i, 1 ≤ i → i ≤ n →
              ((List.range' 1 n).map deviceEntry)[i - 1]?
                = some ⟨"Device" ++ paddedDecimal i, "history/" ++ paddedDecimal i⟩)
          ∧ ((List.range' 1 n).map deviceEntry).Nodup)
        ∧ (4294967296 ≤ n → ∀ fuel, 4294967295 < fuel →
          deviceHistoryHandler other env fuel = some (.error .rangeError)))
    ∧ (∀ n : ℕ, n < 9007199254740992 → decimalValue (Nat.repr n) = some n) := by
  refine ⟨?_, ?_, decimalValue_repr⟩
  · rintro ⟨hc, hs⟩ fuel
    simp only [deviceHistoryHandler, truthy_service_url_unset env hc hs, Bool.false_eq_true,
      if_false]
    rfl
  · intro hset n hpigs
    have ht := truthy_service_url_set env hset
    have hn : toNumber other (numberOfPigs env) = .finite (n : ℚ) := by
      rcases hpigs with ⟨h, rfl⟩ | ⟨s, h, hs⟩
      · exact toNumber_default other env h
      · exact toNumber_decimal other env s n h hs
    constructor
    · intro hsmall fuel hfuel
      refine ⟨?_, by simp, ?_, ?_⟩
      · simp only [deviceHistoryHandler, ht, if_true]
        rw [historyLoop_finite other _ n hn fuel 1 [] (by omega) (by simp; omega)]
        simp only [Nat.add_sub_cancel, List.nil_append]
        rfl
      · intro i h1 hi
        have hlt : i - 1 < n := by omega
        rw [List.getElem?_map, List.getElem?_range' 1 1 hlt]
        have hi1 : 1 + 1 * (i - 1) = i := by omega
        rw [hi1]
        rfl
      · exact (List.nodup_range' 1 n).map deviceEntry_injective
    · intro hbig fuel hfuel
      simp only [deviceHistoryHandler, ht, if_true]
      rw [historyLoop_overflow other _ _ hn (by exact_mod_cast hbig) 4294967295 fuel 1 []
        (by simp) (by omega) hfuel]
      rfl

theorem device_history_stores_witness :
    (deviceHistoryHandler otherNaN (crateEnv (some "3")) 4
        = some (.ok ⟨"history-index", "Short-Term History", (List.range' 1 3).map deviceEntry⟩)
      ∧ (List.range' 1 3).map deviceEntry
        = [⟨"Device001", "history/001"⟩, ⟨"Device002", "history/002"⟩,
           ⟨"Device003", "history/003"⟩])
      ∧ deviceHistoryHandler otherNaN (crateEnv none) 6
        = some (.ok ⟨"history-index", "Short-Term History", (List.range' 1 5).map deviceEntry⟩)
      ∧ deviceHistoryHandler otherNaN emptyCrateEnv 0
        = some (.ok ⟨"history-index", "Short-Term History", []⟩) :=
  ⟨⟨((((device_history_stores otherNaN (crateEnv (some "3"))).2.1
        (Or.inl ⟨"http://crate-db:4200", rfl, by decide⟩) 3
        (Or.inr ⟨"3", rfl, by decide⟩)).1 (by decide)) 4 (by decide)).1, by decide⟩,
   ((((device_history_stores otherNaN (crateEnv none)).2.1
        (Or.inl ⟨"http://crate-db:4200", rfl, by decide⟩) 5
        (Or.inl ⟨Or.inl rfl, rfl⟩)).1 (by decide)) 6 (by decide)).1,
   (device_history_stores otherNaN emptyCrateEnv).1 ⟨Or.inr rfl, Or.inl rfl⟩ 0⟩

end Routes
